import Mathlib

/-!
Verification of the Gemini web proxy conversation driver
(`src/server/gemini_proxy.py`, v1.2.0).

The Python program drives a headless browser session against the Gemini web
UI and exposes it through an OpenAI-style HTTP API.  The definitions below
are shallow embeddings of the individual functions of that file; browser
observations (response-container counts, stop-button visibility, extracted
text lengths) are passed in as explicit per-tick observation functions, and
the module-global `message_count` is threaded as explicit state.
-/

namespace GeminiProxy

/-- Rotation threshold for the exchange counter:
`MAX_MESSAGES_PER_CHAT = 10` (gemini_proxy.py line 34). -/
def MAX_MESSAGES_PER_CHAT : Nat := 10

/-! ## Completion Detector (`wait_for_response_complete`, lines 222-278)

The Python loop runs `while waited < max_wait: sleep(1); waited += 1; ...`.
We call each loop iteration a poll; the poll with counter value `waited = w`
observes the page for the `w`-th time.  A 0-indexed "tick" `i` of a
simulated observation sequence therefore corresponds to the poll with
`waited = i + 1`. -/

/-- Outcome of `wait_for_response_complete`: `complete` is the
`return True` at stability (line 266), `noResponse` the `return False`
escape hatch (line 275), `timeout` the final `return True` after the
120 s ceiling (line 278). -/
inductive WaitResult where
  | complete
  | noResponse
  | timeout
deriving DecidableEq, Repr

/-- Per-poll page observations, indexed by the `waited` counter:
`respCount w` is `count_existing_responses()` at poll `w`, `stopVisible w`
whether a stop/cancel button is visible, `textLen w` the length of
`get_latest_response_text()`. -/
structure WaitObs where
  respCount : Nat → Nat
  stopVisible : Nat → Bool
  textLen : Nat → Nat

/-- The loop state of `wait_for_response_complete`: `generation_started`,
`last_text_length`, `stable_count` (lines 230-232). -/
structure DetState where
  gen : Bool
  lastLen : Nat
  stable : Nat
deriving DecidableEq, Repr

/-- The escape-hatch check at the end of each loop iteration (lines
273-275): `if waited > 30 and not generation_started and
last_text_length == 0: return False`; otherwise the loop continues with
the updated state. -/
def escapeOr (w : Nat) (gen : Bool) (lastLen stable : Nat) :
    Sum WaitResult DetState :=
  if 30 < w ∧ gen = false ∧ lastLen = 0 then Sum.inl WaitResult.noResponse
  else Sum.inr ⟨gen, lastLen, stable⟩

/-- One iteration of the polling loop body (lines 238-275) at poll `w`:
update `generation_started` from the container count (lines 238-240);
if a stop button is visible, set `generation_started`, zero
`stable_count` and `continue` (lines 252-255); otherwise, when
`generation_started or waited > 5`, sample the text length (lines
257-269): a positive unchanged length increments `stable_count` and three
consecutive unchanged samples return `complete`; a changed positive length
resets `stable_count` to 0; either way `last_text_length` is set to the
new length.  Finally the escape hatch runs. -/
def detTick (obs : WaitObs) (existingCount w : Nat) (s : DetState) :
    Sum WaitResult DetState :=
  let gen := s.gen || decide (existingCount < obs.respCount w)
  if obs.stopVisible w then
    Sum.inr ⟨true, s.lastLen, 0⟩
  else
    let len := obs.textLen w
    if (gen = true ∨ 5 < w) ∧ 0 < len then
      if len = s.lastLen then
        if 3 ≤ s.stable + 1 then Sum.inl WaitResult.complete
        else escapeOr w gen len (s.stable + 1)
      else escapeOr w gen len 0
    else escapeOr w gen s.lastLen s.stable

/-- The polling loop (lines 234-278), with `fuel` the number of polls left
(`max_wait - waited`).  Returns the verdict together with the value of
`waited` at the moment of return (the number of the poll that decided). -/
def waitRun (obs : WaitObs) (existingCount : Nat) :
    Nat → Nat → DetState → WaitResult × Nat
  | 0, waited, _ => (WaitResult.timeout, waited)
  | fuel + 1, waited, s =>
    let w := waited + 1
    match detTick obs existingCount w s with
    | Sum.inl r => (r, w)
    | Sum.inr s' => waitRun obs existingCount fuel w s'

/-- Entry point `wait_for_response_complete(existing_count, max_wait=120)`
(line 222):
starts with `waited = 0`, `generation_started = False`,
`last_text_length = 0`, `stable_count = 0`. -/
def wait_for_response_complete (obs : WaitObs) (existingCount maxWait : Nat) :
    WaitResult × Nat :=
  waitRun obs existingCount maxWait 0 ⟨false, 0, 0⟩

/-- Run the detector on a simulated per-tick text-length sequence with
generation already started (the container count exceeds its baseline from
the first poll on) and no stop button, as in the detector scenario of the
spec.
Tick `i` (0-indexed) of the sequence is observed by poll `waited = i + 1`;
the returned number is the 0-indexed tick at which the verdict fell. -/
def detectorOnLengths (seq : List Nat) : WaitResult × Nat :=
  let obs : WaitObs :=
    { respCount := fun _ => 1
      stopVisible := fun _ => false
      textLen := fun w => seq.getD (w - 1) 0 }
  let r := wait_for_response_complete obs 0 120
  (r.1, r.2 - 1)

/-! ## Exchange counter (`message_count`, `send_message_to_gemini`,
`create_new_chat`, lines 33-34, 461-595)

The module-global `message_count` is threaded as explicit state.  A call to
`send_message_to_gemini` touches the counter at two places: the rotation
block at lines 473-476 (`if message_count >= MAX_MESSAGES_PER_CHAT:
create_new_chat_internal(); message_count = 0`, run after the browser
check) and the increment at line 567 on success. -/

/-- How far a `send_message_to_gemini` call gets, as it affects the
counter: `browserDown` is the `ensure_browser()` failure return at line
470 (before the rotation block); `inputNotFound` the error return at line
488 and `extractEmpty` the error return at line 565 (both after the
rotation block); `ok` the success path reaching line 567. -/
inductive SendPhase where
  | browserDown
  | inputNotFound
  | extractEmpty
  | ok
deriving DecidableEq, Repr

/-- Effect of one `send_message_to_gemini` call on `message_count`
(lines 461-573).  Returns the new counter value, whether the rotation
block ran (fresh-conversation navigation + reset to 0, lines 473-476),
and whether the send succeeded. -/
def sendCounter (count : Nat) (phase : SendPhase) : Nat × Bool × Bool :=
  match phase with
  | SendPhase.browserDown => (count, false, false)
  | SendPhase.inputNotFound =>
    (if MAX_MESSAGES_PER_CHAT ≤ count then 0 else count,
     decide (MAX_MESSAGES_PER_CHAT ≤ count), false)
  | SendPhase.extractEmpty =>
    (if MAX_MESSAGES_PER_CHAT ≤ count then 0 else count,
     decide (MAX_MESSAGES_PER_CHAT ≤ count), false)
  | SendPhase.ok =>
    ((if MAX_MESSAGES_PER_CHAT ≤ count then 0 else count) + 1,
     decide (MAX_MESSAGES_PER_CHAT ≤ count), true)

/-- Function `create_new_chat()` (lines 589-595): runs the fresh-conversation
navigation (`create_new_chat_internal`); only on success is
`message_count` reset to 0; the success of the navigation is reported back.
`navOk` is whether the navigation succeeded. -/
def create_new_chat (count : Nat) (navOk : Bool) : Nat × Bool :=
  if navOk then (0, true) else (count, false)

/-- The counter-relevant events of the serialized worker: a send attempt
(with how far it got) or an explicit new-chat request. -/
inductive ProxyEv where
  | send (phase : SendPhase)
  | newChat (navOk : Bool)
deriving DecidableEq, Repr

/-- Effect of one event on `message_count`. -/
def proxyStep (count : Nat) : ProxyEv → Nat
  | ProxyEv.send p => (sendCounter count p).1
  | ProxyEv.newChat navOk => (create_new_chat count navOk).1

/-- Value of `message_count` after a history of events, starting from the initial
value 0 (line 33). -/
def runCounter (evs : List ProxyEv) : Nat := evs.foldl proxyStep 0

/-! ## Surfacing of the wait outcome (`send_message_to_gemini`,
lines 554-573)

Line 554 calls `wait_for_response_complete(existing_count)` and discards
its return value; the code then extracts once (line 558), retries once if
empty (lines 560-562), and returns the extraction-failure error if still
empty (line 565), else the content (line 569). -/

/-- The extraction-failure error message of line 565. -/
def EXTRACTION_FAILURE_ERROR : String :=
  "Gemini 回复提取失败。可能原因：1) 登录过期 2) Gemini 网页结构已更新 3) 网络问题。"

/-- Result of `send_message_to_gemini` as seen by the HTTP layer: either
`{"content": ...}` or `{"error": ...}`. -/
inductive SendOutcome where
  | content (text : String)
  | error (msg : String)
deriving DecidableEq, Repr

/-- Lines 554-569 of `send_message_to_gemini`: `waitOk` is the boolean
returned by `wait_for_response_complete` (`False` exactly in the
no-response case), which the code binds to nothing; `firstExtract` and
`secondExtract` are the two `get_latest_response_text()` results. -/
def surfaceResult (_waitOk : Bool) (firstExtract secondExtract : String) :
    SendOutcome :=
  let text := if firstExtract ≠ "" then firstExtract else secondExtract
  if text ≠ "" then SendOutcome.content text
  else SendOutcome.error EXTRACTION_FAILURE_ERROR

/-! ## Input injection markup (`send_message_to_gemini`, lines 520-533)

The content assignment runs, in the page,
`editor.innerHTML = "<p>" + msgText.replace(/\n/g, "</p><p>") + "</p>"`
(line 527), where `msgText` is the original message text (the Python-side
escaping of lines 520 only protects the characters backslash, backtick and
dollar-brace through the JavaScript template literal and round-trips back
to the original text).  We embed the message and the produced markup as
lists of characters; `replaceNewlines r` is the JavaScript global
single-character replace of a newline by `r`. -/

/-- JavaScript `s.replace(/\n/g, r)` on a character list. -/
def replaceNewlines (r : List Char) : List Char → List Char
  | [] => []
  | c :: cs =>
    if c = '\n' then r ++ replaceNewlines r cs
    else c :: replaceNewlines r cs

/-- The innerHTML markup assigned by line 527. -/
def injectedInnerHTML (msg : List Char) : List Char :=
  "<p>".data ++ replaceNewlines "</p><p>".data msg ++ "</p>".data

/-- The lines of the message: split on the newline character (the
blocks of the claim correspond one-to-one to these lines). -/
def splitLines : List Char → List (List Char)
  | [] => [[]]
  | c :: cs =>
    if c = '\n' then [] :: splitLines cs
    else
      match splitLines cs with
      | [] => [[c]]
      | l :: ls => (c :: l) :: ls

/-- Interleave a separator between a list of blocks (the shape
`block (sep block)*` that repeated replacement of the line break by
`sep` produces). -/
def joinSep (sep : List Char) : List (List Char) → List Char
  | [] => []
  | [l] => l
  | l :: ls => l ++ sep ++ joinSep sep ls

/-! ## Media Store -/

/-- Modelled from the spec: no Media Store exists in `src/` (the code
inlines images as data URLs in the reply text instead); §4.6 `persist`
infers an extension from the MIME hint — png default; jpg/webp/gif
recognized. -/
def extFromMime (mimeHint : String) : String :=
  if mimeHint = "image/jpeg" then "jpg"
  else if mimeHint = "image/webp" then "webp"
  else if mimeHint = "image/gif" then "gif"
  else "png"

/-- Modelled from the spec: §6 media files are named
`<source>_<timestamp>_<random>.<ext>`. -/
def mediaFilename (source : String) (timestamp rand : Nat) (ext : String) :
    String :=
  source ++ "_" ++ toString timestamp ++ "_" ++ toString rand ++ "." ++ ext

/-- Modelled from the spec: the configured media directory, as a map from
filename to byte payload, most recently written first. -/
structure MediaStoreDir where
  files : List (String × List Nat)

/-- Modelled from the spec: §4.6 `persist(mimeHint, rawBytes)` writes the
bytes to the media directory under the generated filename and returns
that filename (the final path component of the retrieval URL). -/
def persistMedia (dir : MediaStoreDir) (mimeHint : String)
    (rawBytes : List Nat) (source : String) (timestamp rand : Nat) :
    MediaStoreDir × String :=
  let fname := mediaFilename source timestamp rand (extFromMime mimeHint)
  (⟨(fname, rawBytes) :: dir.files⟩, fname)

/-- Modelled from the spec: §4.6 the retrieval URL is built from the
own advertised host and port of the server, ending in `/media/<filename>`. -/
def mediaURL (host : String) (port : Nat) (fname : String) : String :=
  "http://" ++ host ++ ":" ++ toString port ++ "/media/" ++ fname

/-- Modelled from the spec: §6 `GET /media/<filename>` returns the
previously persisted media bytes for `<filename>`, or nothing if no such
file exists. -/
def getMedia (dir : MediaStoreDir) (fname : String) : Option (List Nat) :=
  (dir.files.find? (fun f => f.1 == fname)).map (fun f => f.2)

/-! ## OpenAI-compatible HTTP layer (`chat_completions`, lines 624-713) -/

/-- The `usage` object of the non-streaming response (lines 708-712):
Python `len()` on a string counts code points, as `String.length` does. -/
structure Usage where
  prompt_tokens : Nat
  completion_tokens : Nat
  total_tokens : Nat
deriving DecidableEq, Repr

/-- The parts of the non-streaming chat-completion body that the claims
are about (lines 698-713). -/
structure ChatCompletionResponse where
  content : String
  finish_reason : String
  usage : Usage
deriving DecidableEq, Repr

/-- The non-streaming response built at lines 698-713 from the forwarded
user message and the extracted reply text. -/
def chat_completions_response (userMessage responseText : String) :
    ChatCompletionResponse :=
  { content := responseText
    finish_reason := "stop"
    usage :=
      { prompt_tokens := userMessage.length
        completion_tokens := responseText.length
        total_tokens := userMessage.length + responseText.length } }

/-- The streaming chunk slicing of lines 673-675:
`for i in range(0, len(response_text), 50): response_text[i:i+50]`, i.e.
successive 50-code-point slices until the text is exhausted. -/
def chunkChars (cs : List Char) : List (List Char) :=
  if h : cs = [] then []
  else cs.take 50 :: chunkChars (cs.drop 50)
termination_by cs.length
decreasing_by
  simp only [List.length_drop]
  exact Nat.sub_lt (List.length_pos.mpr h) (by omega)

/-- The `delta.content` fields of the content-delta chunks emitted by the
streaming generator (lines 673-683), in emission order. -/
def streamContentDeltas (responseText : String) : List String :=
  (chunkChars responseText.data).map (fun cs => String.mk cs)

/-- One element of an OpenAI-style list-valued `content` field (line
643): only the `text` of parts whose `type` is `"text"` is kept. -/
structure ContentPart where
  type : String
  text : String
deriving DecidableEq, Repr

/-- The `content` of a message: either a plain string or a list of parts
(lines 641-646). -/
inductive MsgContent where
  | str (s : String)
  | parts (l : List ContentPart)
deriving DecidableEq, Repr

/-- One element of the `messages` array of the request. -/
structure ChatMessage where
  role : String
  content : MsgContent
deriving DecidableEq, Repr

/-- Lines 643-646: a list-valued content is flattened to the `text`
fields of its `type == "text"` parts joined by single spaces; a string
content is used as is. -/
def flattenContent : MsgContent → String
  | MsgContent.str s => s
  | MsgContent.parts l =>
    " ".intercalate ((l.filter (fun p => p.type == "text")).map
      (fun p => p.text))

/-- Lines 638-647: walk `reversed(messages)` and take the first message
whose role is `"user"`; its (flattened) content is the forwarded user
message.  No user message leaves `user_message` empty. -/
def extractUserMessage (messages : List ChatMessage) : String :=
  match messages.reverse.find? (fun m => m.role == "user") with
  | some m => flattenContent m.content
  | none => ""

/-- Lines 638-654: an empty forwarded message is rejected with HTTP 400
at line 650 before `send_message_to_gemini` is ever called; otherwise the
message is handed to the browser layer. -/
def routeUserMessage (messages : List ChatMessage) : Except Nat String :=
  let u := extractUserMessage messages
  if u = "" then Except.error 400 else Except.ok u

/-! ## Theorems -/

/-- C1 (counterexample): on the simulated text-length sequence
`[0,0,5,5,12,12,12,12]` with generation started, the detector does not
declare complete at 0-indexed tick 6 — `stable_count >= 3` needs three
consecutive unchanged comparisons, which the third equal sample (tick 6)
has not yet produced. -/
theorem detector_third_equal_sample_counterexample :
    detectorOnLengths [0, 0, 5, 5, 12, 12, 12, 12] ≠
      (WaitResult.complete, 6) := by decide

/-- C1 (amended): on `[0,0,5,5,12,12,12,12]` with generation started, the
detector declares complete exactly at 0-indexed tick 7 — the tick of the
third consecutive unchanged length comparison, i.e. the fourth consecutive
equal sample — and never earlier (the run returns its first verdict). -/
theorem detector_complete_at_tick_7 :
    detectorOnLengths [0, 0, 5, 5, 12, 12, 12, 12] =
      (WaitResult.complete, 7) := by decide

/-- C2 (counterexample): after ten consecutive successful sends from the
initial state, `message_count = 10`, which is not `< MAX_MESSAGES_PER_CHAT`:
the rotation only happens at the start of the next send. -/
theorem exchange_counter_threshold_counterexample :
    runCounter (List.replicate 10 (ProxyEv.send SendPhase.ok)) = 10 ∧
    ¬ runCounter (List.replicate 10 (ProxyEv.send SendPhase.ok)) <
        MAX_MESSAGES_PER_CHAT := by decide

/-- Invariant step: every event keeps `message_count ≤ MAX_MESSAGES_PER_CHAT`. -/
theorem proxyStep_le (count : Nat) (e : ProxyEv)
    (h : count ≤ MAX_MESSAGES_PER_CHAT) :
    proxyStep count e ≤ MAX_MESSAGES_PER_CHAT := by
  cases e with
  | send p =>
    cases p <;> simp only [proxyStep, sendCounter, MAX_MESSAGES_PER_CHAT] at * <;>
      first
      | omega
      | (split <;> omega)
  | newChat navOk =>
    simp only [MAX_MESSAGES_PER_CHAT] at h
    cases navOk <;>
      simp [proxyStep, create_new_chat, MAX_MESSAGES_PER_CHAT] <;>
      omega

/-- Invariant: any event history from the initial counter 0 keeps
`message_count ≤ MAX_MESSAGES_PER_CHAT`. -/
theorem runCounter_le (evs : List ProxyEv) :
    runCounter evs ≤ MAX_MESSAGES_PER_CHAT := by
  suffices h : ∀ (l : List ProxyEv) (c : Nat), c ≤ MAX_MESSAGES_PER_CHAT →
      l.foldl proxyStep c ≤ MAX_MESSAGES_PER_CHAT from
    h evs 0 (by omega)
  intro l
  induction l with
  | nil => intro c hc; simpa using hc
  | cons e l ih => intro c hc; exact ih _ (proxyStep_le c e hc)

/-- C2 (amended): after any event history, `message_count` satisfies
`0 ≤ count ≤ MAX_MESSAGES_PER_CHAT`; a successful send leaves
`1 ≤ count ≤ MAX_MESSAGES_PER_CHAT`; and a send attempt that gets past the
browser check performs the rotation block (exactly once, before the
message is injected) iff the pre-send count has reached the threshold. -/
theorem exchange_counter_amended (evs : List ProxyEv) (p : SendPhase) :
    runCounter evs ≤ MAX_MESSAGES_PER_CHAT ∧
    (p = SendPhase.ok →
      1 ≤ (sendCounter (runCounter evs) p).1 ∧
      (sendCounter (runCounter evs) p).1 ≤ MAX_MESSAGES_PER_CHAT) ∧
    ((sendCounter (runCounter evs) p).2.1 = true ↔
      p ≠ SendPhase.browserDown ∧
        runCounter evs = MAX_MESSAGES_PER_CHAT) := by
  have hle := runCounter_le evs
  simp only [MAX_MESSAGES_PER_CHAT] at hle
  refine ⟨by simpa [MAX_MESSAGES_PER_CHAT] using hle, ?_, ?_⟩
  · intro hp
    subst hp
    simp only [sendCounter, MAX_MESSAGES_PER_CHAT]
    constructor
    · omega
    · split <;> omega
  · cases p <;>
      simp only [sendCounter, decide_eq_true_eq, MAX_MESSAGES_PER_CHAT]
    · simp
    all_goals
      constructor
      · intro h
        exact ⟨by decide, by omega⟩
      · rintro ⟨-, h2⟩
        omega

/-- C2 (witness): after ten successful sends the counter stands at the
threshold, so the eleventh send rotates and ends with a positive count. -/
theorem exchange_counter_amended_witness :
    1 ≤ (sendCounter
        (runCounter (List.replicate 10 (ProxyEv.send SendPhase.ok)))
        SendPhase.ok).1 ∧
    (sendCounter
        (runCounter (List.replicate 10 (ProxyEv.send SendPhase.ok)))
        SendPhase.ok).2.1 = true := by
  have h := exchange_counter_amended
    (List.replicate 10 (ProxyEv.send SendPhase.ok)) SendPhase.ok
  exact ⟨(h.2.1 rfl).1, h.2.2.mpr ⟨by decide, by decide⟩⟩

/-- C3: persisting bytes `B` through the (spec-modelled) Media Store under
a MIME hint and then fetching the returned filename via
`GET /media/{filename}` yields exactly `B`; the retrieval URL is built
from the advertised host and port of the server around that filename. -/
theorem media_round_trip (dir : MediaStoreDir) (host : String) (port : Nat)
    (mimeHint : String) (rawBytes : List Nat) (source : String)
    (timestamp rand : Nat) :
    getMedia (persistMedia dir mimeHint rawBytes source timestamp rand).1
        (persistMedia dir mimeHint rawBytes source timestamp rand).2 =
      some rawBytes ∧
    mediaURL host port
        (persistMedia dir mimeHint rawBytes source timestamp rand).2 =
      "http://" ++ host ++ ":" ++ toString port ++ "/media/" ++
        (persistMedia dir mimeHint rawBytes source timestamp rand).2 := by
  constructor
  · simp [getMedia, persistMedia]
  · rfl

/-- C4 (counterexample): when the wait ends in no-response
(`wait_for_response_complete` returned `False`) and extraction stays
empty, `send_message_to_gemini` returns exactly the generic
extraction-failure error — the same outcome as a pure extraction failure
after a successful wait — because the wait result is discarded at line
554.  No distinct "send likely failed" error exists in the returned
values. -/
theorem no_response_conflated_counterexample :
    surfaceResult false "" "" = SendOutcome.error EXTRACTION_FAILURE_ERROR ∧
    surfaceResult false "" "" = surfaceResult true "" "" := by decide

/-- C4 (amended): the no-response outcome is never returned as an empty
success — an empty extraction always surfaces as an error — but it is not
distinct either: `send_message_to_gemini` ignores the wait verdict
entirely (the outcome is independent of it), and the empty-extraction
case is surfaced as the generic extraction-failure error. -/
theorem no_response_surfacing_amended (waitOk : Bool)
    (firstExtract secondExtract : String) :
    surfaceResult waitOk firstExtract secondExtract ≠
      SendOutcome.content "" ∧
    surfaceResult waitOk firstExtract secondExtract =
      surfaceResult (!waitOk) firstExtract secondExtract ∧
    surfaceResult waitOk "" "" =
      SendOutcome.error EXTRACTION_FAILURE_ERROR := by
  refine ⟨?_, rfl, rfl⟩
  intro ht
  dsimp only [surfaceResult] at ht
  split at ht
  · next hne => exact hne (SendOutcome.content.inj ht)
  · split at ht
    · next hne => exact hne (SendOutcome.content.inj ht)
    · exact SendOutcome.noConfusion ht

/-- C4 (witness): instances of the amended statement — a returned success
is non-empty, and the conflated error surfaces on empty extraction. -/
theorem no_response_surfacing_amended_witness :
    surfaceResult false "" "" ≠ SendOutcome.content "" ∧
    surfaceResult false "" "" =
      SendOutcome.error EXTRACTION_FAILURE_ERROR :=
  ⟨(no_response_surfacing_amended false "" "").1,
    (no_response_surfacing_amended false "" "").2.2⟩

/-- C7: the non-streaming response always carries
`finish_reason = "stop"` and a usage object with
`total_tokens = prompt_tokens + completion_tokens`. -/
theorem finish_reason_and_usage (userMessage responseText : String) :
    (chat_completions_response userMessage responseText).finish_reason =
      "stop" ∧
    (chat_completions_response userMessage responseText).usage.total_tokens =
      (chat_completions_response userMessage responseText).usage.prompt_tokens +
        (chat_completions_response userMessage responseText).usage.completion_tokens :=
  ⟨rfl, rfl⟩

/-- With no new containers, no stop button and no text ever, the polling
loop leaves its initial state untouched and fires the escape hatch at the
poll with `waited = 31`. -/
theorem waitRun_no_signal (obs : WaitObs) (existingCount : Nat)
    (h1 : ∀ w, obs.respCount w ≤ existingCount)
    (h2 : ∀ w, obs.stopVisible w = false)
    (h3 : ∀ w, obs.textLen w = 0) :
    ∀ (fuel waited : Nat), waited ≤ 30 → 30 < waited + fuel →
      waitRun obs existingCount fuel waited ⟨false, 0, 0⟩ =
        (WaitResult.noResponse, 31) := by
  intro fuel
  induction fuel with
  | zero => intro waited hle hlt; omega
  | succ fuel ih =>
    intro waited hle hlt
    have hgen : (false || decide (existingCount < obs.respCount (waited + 1)))
        = false := by
      simp [Nat.not_lt.mpr (h1 (waited + 1))]
    simp only [waitRun, detTick, h2, h3, hgen, Bool.false_eq_true, if_false,
      Nat.lt_irrefl, and_false, if_false, escapeOr]
    by_cases h30 : waited = 30
    · subst h30
      norm_num
    · have hcond : ¬(30 < waited + 1 ∧ True ∧ True) := by
        simp only [and_true, not_lt]
        omega
      rw [if_neg hcond]
      exact ih (waited + 1) (by omega) (by omega)

/-- C5: whenever the observations show generation never starting (the
container count never exceeds its baseline, no stop button ever visible)
and no text ever observed, `wait_for_response_complete` with the default
120 s ceiling returns the no-response verdict at `waited = 31`, i.e.
0-indexed tick 30 — by tick 30 and never later. -/
theorem no_response_by_tick_30 (obs : WaitObs) (existingCount : Nat)
    (h1 : ∀ w, obs.respCount w ≤ existingCount)
    (h2 : ∀ w, obs.stopVisible w = false)
    (h3 : ∀ w, obs.textLen w = 0) :
    wait_for_response_complete obs existingCount 120 =
      (WaitResult.noResponse, 31) :=
  waitRun_no_signal obs existingCount h1 h2 h3 120 0 (by omega) (by omega)

/-- C5 (witness): the all-silent observation sequence. -/
theorem no_response_by_tick_30_witness :
    wait_for_response_complete ⟨fun _ => 0, fun _ => false, fun _ => 0⟩ 0 120 =
      (WaitResult.noResponse, 31) :=
  no_response_by_tick_30 ⟨fun _ => 0, fun _ => false, fun _ => 0⟩ 0
    (fun _ => Nat.le_refl 0) (fun _ => rfl) (fun _ => rfl)

/-- The streaming slices reassemble the sliced character list. -/
theorem chunkChars_flatten (cs : List Char) :
    (chunkChars cs).flatten = cs := by
  induction cs using chunkChars.induct with
  | case1 => simp [chunkChars]
  | case2 cs hnil ih =>
    rw [chunkChars, dif_neg hnil]
    simp [ih]

/-- Joining the strings made from character-list chunks is the string of
the flattened chunks. -/
theorem string_join_mk (ls : List (List Char)) :
    String.join (ls.map (fun cs => String.mk cs)) = String.mk ls.flatten := by
  suffices h : ∀ (l : List (List Char)) (acc : List Char),
      List.foldl (fun r s => r ++ s) (String.mk acc)
        (l.map (fun cs => String.mk cs)) = String.mk (acc ++ l.flatten) by
    have := h ls []
    simpa [String.join] using this
  intro l
  induction l with
  | nil => intro acc; simp
  | cons c l ih =>
    intro acc
    have hmk : String.mk acc ++ String.mk c = String.mk (acc ++ c) := rfl
    simp only [List.map_cons, List.foldl_cons, hmk, ih, List.flatten_cons,
      List.append_assoc]

/-- C8: concatenating the `delta.content` fields of all streaming
content-delta chunks in emission order yields exactly the
`message.content` string of the non-streaming response for the same
reply. -/
theorem stream_concat_eq_content (userMessage responseText : String) :
    String.join (streamContentDeltas responseText) =
      (chat_completions_response userMessage responseText).content := by
  show String.join _ = responseText
  rw [streamContentDeltas, string_join_mk, chunkChars_flatten]

/-- Splitting always yields at least one line. -/
theorem splitLines_ne_nil (cs : List Char) : splitLines cs ≠ [] := by
  induction cs with
  | nil => simp [splitLines]
  | cons c cs ih =>
    by_cases hc : c = '\n'
    · simp [splitLines, hc]
    · simp only [splitLines, if_neg hc]
      cases hsp : splitLines cs with
      | nil => simp
      | cons l ls => simp

/-- Globally replacing the newline by `r` interleaves `r` between the
lines. -/
theorem replaceNewlines_eq_joinSep (r : List Char) (msg : List Char) :
    replaceNewlines r msg = joinSep r (splitLines msg) := by
  induction msg with
  | nil => rfl
  | cons c cs ih =>
    obtain ⟨l, ls, hsp⟩ : ∃ l ls, splitLines cs = l :: ls := by
      cases h : splitLines cs with
      | nil => exact absurd h (splitLines_ne_nil cs)
      | cons l ls => exact ⟨l, ls, rfl⟩
    by_cases hc : c = '\n'
    · subst hc
      simp only [replaceNewlines, if_pos rfl, splitLines, ih, hsp]
      rfl
    · simp only [replaceNewlines, if_neg hc, splitLines, ih, hsp]
      cases ls with
      | nil => rfl
      | cons l2 ls2 => rfl

/-- Wrapping `p … q` around a `q ++ p`-interleaved line list is the same
as wrapping each line in `p … q` and concatenating. -/
theorem joinSep_blocks (p q : List Char) :
    ∀ ls : List (List Char), ls ≠ [] →
      p ++ joinSep (q ++ p) ls ++ q =
        (ls.map (fun l => p ++ l ++ q)).flatten := by
  intro ls
  induction ls with
  | nil => intro h; exact absurd rfl h
  | cons l ls ih =>
    intro _
    cases ls with
    | nil => simp [joinSep]
    | cons l2 ls2 =>
      have h2 := ih (by simp)
      simp only [joinSep, List.map_cons, List.flatten_cons] at *
      rw [← List.append_assoc, ← h2]
      simp [List.append_assoc]

/-- C6: the innerHTML markup injected for a message is exactly the
concatenation of one `<p>…</p>` block per line of the message (splitting
on line breaks), where every empty line contributes the explicit empty
block `<p></p>`; the number of blocks equals the number of lines (one
more than the newline count), so blank lines are never collapsed. -/
theorem inject_markup_blocks (msg : List Char) :
    injectedInnerHTML msg =
      ((splitLines msg).map (fun l =>
        if l = [] then "<p></p>".data
        else "<p>".data ++ l ++ "</p>".data)).flatten ∧
    (splitLines msg).length = msg.count '\n' + 1 := by
  constructor
  · have hmap : (splitLines msg).map (fun l =>
        if l = [] then "<p></p>".data
        else "<p>".data ++ l ++ "</p>".data) =
        (splitLines msg).map (fun l => "<p>".data ++ l ++ "</p>".data) := by
      apply List.map_congr_left
      intro l _
      by_cases hl : l = []
      · subst hl
        rw [if_pos rfl]
        rfl
      · rw [if_neg hl]
    rw [hmap, injectedInnerHTML, replaceNewlines_eq_joinSep]
    have hqp : "</p><p>".data = "</p>".data ++ "<p>".data := rfl
    rw [hqp]
    exact joinSep_blocks "<p>".data "</p>".data (splitLines msg)
      (splitLines_ne_nil msg)
  · induction msg with
    | nil => simp [splitLines]
    | cons c cs ih =>
      obtain ⟨l, ls, hsp⟩ : ∃ l ls, splitLines cs = l :: ls := by
        cases h : splitLines cs with
        | nil => exact absurd h (splitLines_ne_nil cs)
        | cons l ls => exact ⟨l, ls, rfl⟩
      by_cases hc : c = '\n'
      · subst hc
        simp [splitLines, List.count_cons, ih]
      · simp only [splitLines, if_neg hc, hsp, List.length_cons,
          List.count_cons]
        rw [hsp] at ih
        simp only [List.length_cons] at ih
        simp [hc, ih]

/-- C9: the chat-completions route forwards exactly the (flattened)
content of the last `"user"`-role message — earlier messages and
non-user messages are ignored — and rejects with HTTP 400 when that
content is empty or when no user message exists, before any browser
operation. -/
theorem last_user_message_routing :
    (∀ (pre post : List ChatMessage) (m : ChatMessage),
      m.role = "user" → (∀ x ∈ post, x.role ≠ "user") →
      extractUserMessage (pre ++ m :: post) = flattenContent m.content ∧
      (flattenContent m.content = "" →
        routeUserMessage (pre ++ m :: post) = Except.error 400) ∧
      (flattenContent m.content ≠ "" →
        routeUserMessage (pre ++ m :: post) =
          Except.ok (flattenContent m.content))) ∧
    (∀ messages : List ChatMessage,
      (∀ x ∈ messages, x.role ≠ "user") →
      routeUserMessage messages = Except.error 400) := by
  have hext : ∀ (pre post : List ChatMessage) (m : ChatMessage),
      m.role = "user" → (∀ x ∈ post, x.role ≠ "user") →
      extractUserMessage (pre ++ m :: post) = flattenContent m.content := by
    intro pre post m hm hpost
    unfold extractUserMessage
    have hrev : (pre ++ m :: post).reverse =
        post.reverse ++ [m] ++ pre.reverse := by
      simp
    have hnone : post.reverse.find? (fun x => x.role == "user") = none := by
      rw [List.find?_eq_none]
      intro x hx
      simpa using hpost x (List.mem_reverse.mp hx)
    have hsome : [m].find? (fun x => x.role == "user") = some m := by
      simp [List.find?, hm]
    rw [hrev]
    simp only [List.find?_append, hnone, hsome]
    rfl
  refine ⟨?_, ?_⟩
  · intro pre post m hm hpost
    have he := hext pre post m hm hpost
    refine ⟨he, ?_, ?_⟩
    · intro hempty
      unfold routeUserMessage
      rw [he, if_pos hempty]
    · intro hne
      unfold routeUserMessage
      rw [he, if_neg hne]
  · intro messages hno
    have hnone : messages.reverse.find? (fun x => x.role == "user") = none := by
      rw [List.find?_eq_none]
      intro x hx
      simpa using hno x (List.mem_reverse.mp hx)
    unfold routeUserMessage extractUserMessage
    rw [hnone]
    rfl

/-- C9 (witness): a request whose last user message carries list content
is flattened to its text parts joined by spaces, ignoring an earlier
system message, a later assistant message and the non-text part; a
request with no user message is rejected with 400. -/
theorem last_user_message_routing_witness :
    routeUserMessage
      [⟨"system", MsgContent.str "sys"⟩,
       ⟨"user", MsgContent.parts
         [⟨"text", "hello"⟩, ⟨"image_url", "u"⟩, ⟨"text", "world"⟩]⟩,
       ⟨"assistant", MsgContent.str "prev"⟩] = Except.ok "hello world" ∧
    routeUserMessage [⟨"assistant", MsgContent.str "a"⟩] =
      Except.error 400 := by
  constructor
  · have hflat : flattenContent (MsgContent.parts
        [⟨"text", "hello"⟩, ⟨"image_url", "u"⟩, ⟨"text", "world"⟩]) =
        "hello world" := by decide
    have h := (last_user_message_routing.1
      [⟨"system", MsgContent.str "sys"⟩]
      [⟨"assistant", MsgContent.str "prev"⟩]
      ⟨"user", MsgContent.parts
        [⟨"text", "hello"⟩, ⟨"image_url", "u"⟩, ⟨"text", "world"⟩]⟩
      rfl (by decide)).2.2 (by decide)
    rw [hflat] at h
    exact h
  · exact last_user_message_routing.2 _ (by decide)

/-- C10: the explicit new-chat operation resets `message_count` to zero
exactly when the fresh-conversation navigation succeeds, reporting
success; when the navigation fails the counter is left unchanged and
failure is reported. -/
theorem create_new_chat_reset_iff (count : Nat) :
    create_new_chat count true = (0, true) ∧
    create_new_chat count false = (count, false) :=
  ⟨rfl, rfl⟩

end GeminiProxy
